import Mathlib

/-!
Verification of the yup-oauth2 device-flow core (src/device.rs, src/helper.rs).

The Rust source is shallowly embedded: JSON payloads become an inductive
`JsonVal`, the success-or-error response envelope becomes `decodeAuthErrorOr`,
the polling loop `DeviceFlow::wait_for_device_token` becomes a recursive
function over the finite list of poll responses the server would give, and the
observable actions of one flow attempt (waits, polls, the delegate call) are
recorded as an event trace. Times are integer seconds; `std::time::Duration`
values are natural-number second counts.
-/

namespace YupOauth2

/-- A JSON value, as far as this code base inspects one. -/
inductive JsonVal where
  | str (s : String)
  | num (n : Int)
  | bool (b : Bool)
  | null
  | obj (fields : List (String × JsonVal))
deriving Repr

/-- Field lookup on a JSON object; any non-object has no fields. -/
def lookupField (j : JsonVal) (key : String) : Option JsonVal :=
  match j with
  | .obj fields => fields.lookup key
  | _ => none

/-- A required string field, as serde decodes `String`. -/
def asString : Option JsonVal → Option String
  | some (.str s) => some s
  | _ => none

/-- An optional string field, as serde decodes `Option<String>`:
absent or `null` is `none`, any other non-string shape fails. -/
def asOptString : Option JsonVal → Option (Option String)
  | none => some none
  | some .null => some none
  | some (.str s) => some (some s)
  | some _ => none

/-- A required `i64` field: a JSON integer within the `i64` range. -/
def asI64 : Option JsonVal → Option Int
  | some (.num n) => if -(2 ^ 63) ≤ n ∧ n < 2 ^ 63 then some n else none
  | _ => none

/-- An optional `i64` field, as serde decodes `Option<i64>`. -/
def asOptI64 : Option JsonVal → Option (Option Int)
  | none => some none
  | some .null => some none
  | some (.num n) => if -(2 ^ 63) ≤ n ∧ n < 2 ^ 63 then some (some n) else none
  | some _ => none

/-- Modelled from the spec: the structured server error body
`{error, error_description?, error_uri?}` (the `AuthError` type lives in
src/error.rs, which is not part of the visible sources). -/
structure AuthError where
  error : String
  error_description : Option String
  error_uri : Option String
deriving Repr, DecidableEq

/-- Modelled from the spec: decoding the error shape of the response envelope.
It applies exactly when the payload carries a string `error` field. -/
def decodeAuthError (j : JsonVal) : Option AuthError :=
  match lookupField j "error" with
  | some (.str e) =>
      some { error := e
             error_description := (lookupField j "error_description").bind fun v =>
               match v with
               | .str s => some s
               | _ => none
             error_uri := (lookupField j "error_uri").bind fun v =>
               match v with
               | .str s => some s
               | _ => none }
  | _ => none

/-- Modelled from the spec: the crate error type (src/error.rs is not among
the visible sources). `authError` is a structured server error; transport
failures and JSON-shape failures are the taxonomy of spec section 7. -/
inductive Error where
  | authError (e : AuthError)
  | transportError (msg : String)
  | decodeError (msg : String)
deriving Repr, DecidableEq

/-- Modelled from the spec: `AuthErrorOr<T>` deserialization followed by
`into_result` (src/error.rs, not among the visible sources). The envelope is
decoded first: a payload carrying the error shape always wins; otherwise the
payload is decoded strictly as `T`, and a failure there is a decode error. -/
def decodeAuthErrorOr {T : Type} (decodeT : JsonVal → Option T) (j : JsonVal) :
    Except Error T :=
  match decodeAuthError j with
  | some a => .error (.authError a)
  | none =>
      match decodeT j with
      | some t => .ok t
      | none => .error (.decodeError "invalid response body")

/-- Modelled from the spec: the token returned by a successful poll
(`Token` lives in src/types.rs, not among the visible sources): access token,
optional refresh token, token type, optional relative lifetime in seconds. -/
structure Token where
  access_token : String
  refresh_token : Option String
  token_type : String
  expires_in : Option Int
deriving Repr, DecidableEq

/-- Modelled from the spec: serde decoding of the token success shape
`{access_token, refresh_token?, token_type, expires_in?}`. -/
def decodeToken (j : JsonVal) : Option Token := do
  let access_token ← asString (lookupField j "access_token")
  let refresh_token ← asOptString (lookupField j "refresh_token")
  let token_type ← asString (lookupField j "token_type")
  let expires_in ← asOptI64 (lookupField j "expires_in")
  some { access_token, refresh_token, token_type, expires_in }

/-- The `JsonData` struct declared inside `DeviceFlow::request_code`:
`device_code`, `user_code`, `verification_uri` (with serde alias
`verification_url`), optional `expires_in`, and `interval`. -/
structure JsonData where
  device_code : String
  user_code : String
  verification_uri : String
  expires_in : Option Int
  interval : Int
deriving Repr, DecidableEq

/-- The `verification_uri` field with its serde alias `verification_url`,
accepted when the primary name is absent. -/
def decodeVerificationUri (j : JsonVal) : Option String :=
  match lookupField j "verification_uri" with
  | some v => asString (some v)
  | none => asString (lookupField j "verification_url")

/-- Serde decoding of `JsonData`. -/
def decodeJsonData (j : JsonVal) : Option JsonData := do
  let device_code ← asString (lookupField j "device_code")
  let user_code ← asString (lookupField j "user_code")
  let verification_uri ← decodeVerificationUri j
  let expires_in ← asOptI64 (lookupField j "expires_in")
  let interval ← asI64 (lookupField j "interval")
  some { device_code, user_code, verification_uri, expires_in, interval }

/-- `i64::abs` with release-mode overflow semantics: the absolute value,
except that `i64::MIN` wraps to itself. -/
def rustAbsI64 (x : Int) : Int :=
  if x = -(2 ^ 63) then x else (x.natAbs : Int)

/-- The `as u64` cast of an `i64` value: reduction modulo `2^64`. -/
def i64AsU64 (x : Int) : Nat :=
  (x % (2 : Int) ^ 64).toNat

/-- The `PollInformation` struct handed to the flow delegate
(declared in src/authenticator_delegate.rs; its construction is in
`DeviceFlow::request_code`). `expires_at` is an absolute time in seconds and
`interval` a duration in seconds. It has no device-code field. -/
structure PollInformation where
  user_code : String
  verification_url : String
  expires_at : Int
  interval : Nat
deriving Repr, DecidableEq

/-- The pure tail of `DeviceFlow::request_code`: from the decoded `JsonData`
and the current time, build the `PollInformation`. `expires_in` defaults to
`60 * 60` seconds, `expires_at` is now plus that lifetime, and the interval is
`Duration::from_secs(i64::abs(interval) as u64)`. -/
def mkPollInfo (now : Int) (d : JsonData) : PollInformation :=
  { user_code := d.user_code
    verification_url := d.verification_uri
    expires_at := now + (d.expires_in.getD (60 * 60))
    interval := i64AsU64 (rustAbsI64 d.interval) }

/-- `DeviceFlow::request_code`, given the bytes of the server response already
parsed into a `JsonVal` and the current time: decode through the envelope,
then return the poll information together with the device code. -/
def request_code (now : Int) (body : JsonVal) :
    Except Error (PollInformation × String) :=
  match decodeAuthErrorOr decodeJsonData body with
  | .error e => .error e
  | .ok d => .ok (mkPollInfo now d, d.device_code)

/-- The outcome of one `poll_token` call: a token or an error. -/
inductive PollResult where
  | ok (t : Token)
  | err (e : Error)
deriving Repr, DecidableEq

/-- The interval update performed by the match inside
`DeviceFlow::wait_for_device_token`: `authorization_pending` keeps the
interval, `slow_down` adds five seconds, anything else ends the loop
(`none`). -/
def nextInterval (interval : Nat) (e : Error) : Option Nat :=
  match e with
  | .authError a =>
      if a.error = "authorization_pending" then some interval
      else if a.error = "slow_down" then some (interval + 5)
      else none
  | _ => none

/-- Observable actions of one flow attempt, in order. -/
inductive Event where
  | codeRequest
  | presentUserCode (pi : PollInformation)
  | wait (secs : Nat)
  | poll
deriving Repr, DecidableEq

/-- Terminal classification of the polling loop on a finite response list:
success, a fatal error, or still pending (responses exhausted) with the
interval the loop would wait next. -/
inductive DriverOutcome where
  | success (t : Token)
  | fatal (e : Error)
  | pending (interval : Nat)
deriving Repr, DecidableEq

/-- `DeviceFlow::wait_for_device_token` over the finite list of responses the
server gives to successive polls. Each iteration waits the current interval,
polls once, then either returns, or recurses with the updated interval. The
trace records every wait and poll. -/
def wait_for_device_token (interval : Nat) :
    List PollResult → DriverOutcome × List Event
  | [] => (.pending interval, [])
  | r :: rs =>
      match r with
      | .ok t => (.success t, [.wait interval, .poll])
      | .err e =>
          match nextInterval interval e with
          | some j =>
              let (o, es) := wait_for_device_token j rs
              (o, .wait interval :: .poll :: es)
          | none => (.fatal e, [.wait interval, .poll])

/-- `DeviceFlow::token`: request a code; on failure propagate the error at
once; on success call `present_user_code` with the poll information, then run
the polling loop at the server-declared interval. -/
def token (now : Int) (codeBody : JsonVal) (pollResps : List PollResult) :
    DriverOutcome × List Event :=
  match request_code now codeBody with
  | .error e => (.fatal e, [.codeRequest])
  | .ok pr =>
      let (o, es) := wait_for_device_token pr.1.interval pollResps
      (o, .codeRequest :: .presentUserCode pr.1 :: es)

/-- Whether an event is a poll request. -/
def isPollEvent : Event → Bool
  | .poll => true
  | _ => false

/-- Whether an event is the delegate call. -/
def isPresentEvent : Event → Bool
  | .presentUserCode _ => true
  | _ => false

/-- The sequence of wait durations in a trace. -/
def waitsOf (es : List Event) : List Nat :=
  es.filterMap fun e =>
    match e with
    | .wait s => some s
    | _ => none

/-- A trace is well paced when it is a sequence of wait-then-poll pairs:
every poll is immediately preceded by a completed wait, and no two polls
occur without a wait between them. -/
def wellPaced : List Event → Bool
  | [] => true
  | .wait _ :: .poll :: rest => wellPaced rest
  | _ => false

/-- The retryable error kinds of the polling loop, exactly the two guards of
the match in `wait_for_device_token`: a structured server error whose kind is
`authorization_pending` or `slow_down`. -/
def isRetryableKind : Error → Bool
  | .authError a => a.error == "authorization_pending" || a.error == "slow_down"
  | _ => false

/-- Modelled from the spec: an application secret as consumed by the flows
(`ApplicationSecret` lives in src/types.rs, not among the visible sources);
only the fields device.rs reads are kept. -/
structure ApplicationSecret where
  client_id : String
  client_secret : String
  token_uri : String
deriving Repr, DecidableEq

/-- Modelled from the spec: the console export format with its two optional
sections (`ConsoleApplicationSecret` lives in src/types.rs, not among the
visible sources). -/
structure ConsoleApplicationSecret where
  web : Option ApplicationSecret
  installed : Option ApplicationSecret
deriving Repr, DecidableEq

/-- The `io::ErrorKind` values `parse_application_secret` can produce. -/
inductive IoErrKind where
  | invalidData
deriving Repr, DecidableEq

/-- `parse_application_secret` from src/helper.rs, taking the outcome of the
serde decode of the input bytes (`none` when the bytes are not valid JSON of
the `ConsoleApplicationSecret` shape): prefer the `web` section, then the
`installed` section, otherwise an `InvalidData` error; a decode failure is
also an `InvalidData` error. -/
def parse_application_secret (decoded : Option ConsoleApplicationSecret) :
    Except IoErrKind ApplicationSecret :=
  match decoded with
  | none => .error .invalidData
  | some d =>
      match d.web with
      | some web => .ok web
      | none =>
          match d.installed with
          | some installed => .ok installed
          | none => .error .invalidData

/-! ### Helper lemmas about the polling loop -/

/-- An interval update never decreases the interval. -/
lemma nextInterval_ge {i j : Nat} {e : Error} (h : nextInterval i e = some j) :
    i ≤ j := by
  cases e with
  | authError a =>
      unfold nextInterval at h
      by_cases h1 : a.error = "authorization_pending"
      · simp [h1] at h; omega
      · by_cases h2 : a.error = "slow_down"
        · simp [h1, h2] at h; omega
        · simp [h1, h2] at h
  | transportError m => simp [nextInterval] at h
  | decodeError m => simp [nextInterval] at h

/-- The loop updates the interval only on the two retryable kinds. -/
lemma nextInterval_eq_none {i : Nat} {e : Error} (h : isRetryableKind e = false) :
    nextInterval i e = none := by
  cases e with
  | authError a =>
      simp only [isRetryableKind, Bool.or_eq_false_iff, beq_eq_false_iff_ne] at h
      simp [nextInterval, h.1, h.2]
  | transportError m => rfl
  | decodeError m => rfl

/-- The first wait of a nonempty run is the starting interval. -/
lemma waitsOf_head (i : Nat) (r : PollResult) (rs : List PollResult) :
    ∃ l, waitsOf (wait_for_device_token i (r :: rs)).2 = i :: l := by
  cases r with
  | ok t => exact ⟨[], rfl⟩
  | err e =>
      cases h : nextInterval i e with
      | none => exact ⟨[], by simp [wait_for_device_token, h, waitsOf]⟩
      | some j =>
          exact ⟨waitsOf (wait_for_device_token j rs).2, by
            simp [wait_for_device_token, h, waitsOf]⟩

/-- The waits recorded by the polling loop never decrease. -/
lemma waitsOf_chain (rs : List PollResult) :
    ∀ i : Nat, List.Chain' (· ≤ ·) (waitsOf (wait_for_device_token i rs).2) := by
  induction rs with
  | nil => intro i; simp [wait_for_device_token, waitsOf]
  | cons r rs ih =>
      intro i
      cases r with
      | ok t => simp [wait_for_device_token, waitsOf]
      | err e =>
          cases h : nextInterval i e with
          | none => simp [wait_for_device_token, h, waitsOf]
          | some j =>
              have hij : i ≤ j := nextInterval_ge h
              have hw : (wait_for_device_token i (.err e :: rs)).2
                  = .wait i :: .poll :: (wait_for_device_token j rs).2 := by
                simp [wait_for_device_token, h]
              have heq : waitsOf (wait_for_device_token i (.err e :: rs)).2
                  = i :: waitsOf (wait_for_device_token j rs).2 := by
                rw [hw]; rfl
              rw [heq]
              cases rs with
              | nil => simp [wait_for_device_token, waitsOf]
              | cons r2 rs2 =>
                  obtain ⟨l, hl⟩ := waitsOf_head j r2 rs2
                  have hch := ih j
                  rw [hl] at hch ⊢
                  exact List.Chain'.cons hij hch

/-- Stepping over a retryable response prefixes one wait-poll pair. -/
lemma driver_cons_retryable {i j : Nat} {e : Error} (rs : List PollResult)
    (h : nextInterval i e = some j) :
    wait_for_device_token i (.err e :: rs)
      = ((wait_for_device_token j rs).1,
         .wait i :: .poll :: (wait_for_device_token j rs).2) := by
  simp [wait_for_device_token, h]

/-- Every trace of the polling loop is a sequence of wait-poll pairs. -/
lemma wellPaced_driver (rs : List PollResult) :
    ∀ i : Nat, wellPaced (wait_for_device_token i rs).2 = true := by
  induction rs with
  | nil => intro i; rfl
  | cons r rs ih =>
      intro i
      cases r with
      | ok t => rfl
      | err e =>
          cases h : nextInterval i e with
          | none => simp [wait_for_device_token, h, wellPaced]
          | some j => rw [driver_cons_retryable rs h]; simp [wellPaced, ih j]

/-- The polling loop emits no delegate calls. -/
lemma countP_present_driver (rs : List PollResult) :
    ∀ i : Nat, (wait_for_device_token i rs).2.countP isPresentEvent = 0 := by
  induction rs with
  | nil => intro i; rfl
  | cons r rs ih =>
      intro i
      cases r with
      | ok t => rfl
      | err e =>
          cases h : nextInterval i e with
          | none => simp [wait_for_device_token, h, List.countP_cons, isPresentEvent]
          | some j =>
              rw [driver_cons_retryable rs h]
              simp [List.countP_cons, isPresentEvent, ih j]

/-- Decoding through the envelope succeeds exactly by the payload decoder. -/
lemma decodeAuthErrorOr_ok {T : Type} {decodeT : JsonVal → Option T}
    {j : JsonVal} {t : T} (h : decodeAuthErrorOr decodeT j = .ok t) :
    decodeT j = some t := by
  unfold decodeAuthErrorOr at h
  cases ha : decodeAuthError j with
  | some a => rw [ha] at h; exact absurd h (by simp)
  | none =>
      rw [ha] at h
      cases hd : decodeT j with
      | some v => rw [hd] at h; simp at h; rw [h]
      | none => rw [hd] at h; exact absurd h (by simp)

/-- A successfully decoded required `i64` field lies in the `i64` range. -/
lemma asI64_range {v : Option JsonVal} {n : Int} (h : asI64 v = some n) :
    -(2 ^ 63) ≤ n ∧ n < 2 ^ 63 := by
  cases v with
  | none => exact absurd h (by simp [asI64])
  | some j =>
      cases j with
      | num m =>
          simp only [asI64] at h
          by_cases hc : -(2 ^ 63) ≤ m ∧ m < 2 ^ 63
          · rw [if_pos hc] at h; injection h with h; omega
          · rw [if_neg hc] at h; exact absurd h (by simp)
      | str s => exact absurd h (by simp [asI64])
      | bool b => exact absurd h (by simp [asI64])
      | null => exact absurd h (by simp [asI64])
      | obj f => exact absurd h (by simp [asI64])

/-- A decoded `JsonData` carries an interval in the `i64` range. -/
lemma decodeJsonData_interval_range {b : JsonVal} {d : JsonData}
    (h : decodeJsonData b = some d) :
    -(2 ^ 63) ≤ d.interval ∧ d.interval < 2 ^ 63 := by
  unfold decodeJsonData at h
  simp only [Option.bind_eq_bind, Option.bind_eq_some] at h
  obtain ⟨dc, _, uc, _, vu, _, ei, _, iv, hiv, hd⟩ := h
  injection hd with hd
  have := asI64_range hiv
  rw [← hd]
  exact this

/-- `i64::abs` followed by the `as u64` cast computes the absolute value on
the whole `i64` range, including `i64::MIN` where the wrap-around of `abs`
and the cast cancel. -/
lemma i64AsU64_rustAbsI64 {x : Int} (h1 : -(2 ^ 63) ≤ x) (h2 : x < 2 ^ 63) :
    i64AsU64 (rustAbsI64 x) = x.natAbs := by
  have h63 : (2 : Int) ^ 63 = 9223372036854775808 := by norm_num
  have h64 : (2 : Int) ^ 64 = 18446744073709551616 := by norm_num
  unfold rustAbsI64 i64AsU64
  rw [h63] at h1 h2 ⊢
  rw [h64]
  by_cases hx : x = -9223372036854775808
  · rw [if_pos hx, hx]; omega
  · rw [if_neg hx]; omega

/-! ### The claims -/

/-- C1: every `slow_down` poll response increases the wait interval by
exactly five seconds, for every current interval (no maximum cap); every
interval update of the loop is non-decreasing; and along any run of the
polling loop the recorded wait durations are monotonically non-decreasing. -/
theorem slow_down_adds_five_and_intervals_monotone :
    (∀ (i : Nat) (d u : Option String),
      nextInterval i (.authError ⟨"slow_down", d, u⟩) = some (i + 5)) ∧
    (∀ (i : Nat) (d u : Option String) (rs : List PollResult),
      wait_for_device_token i (.err (.authError ⟨"slow_down", d, u⟩) :: rs)
        = ((wait_for_device_token (i + 5) rs).1,
           .wait i :: .poll :: (wait_for_device_token (i + 5) rs).2)) ∧
    (∀ (i j : Nat) (e : Error), nextInterval i e = some j → i ≤ j) ∧
    (∀ (i : Nat) (rs : List PollResult),
      List.Chain' (· ≤ ·) (waitsOf (wait_for_device_token i rs).2)) := by
  refine ⟨fun i d u => by simp [nextInterval], fun i d u rs => ?_,
    fun i j e h => nextInterval_ge h, fun i rs => waitsOf_chain rs i⟩
  exact driver_cons_retryable rs (by simp [nextInterval])

/-- C1 witness: at interval 1 a `slow_down` response yields interval 6, and
the update is non-decreasing there. -/
theorem slow_down_adds_five_witness :
    nextInterval 1 (.authError ⟨"slow_down", none, none⟩) = some 6 ∧ 1 ≤ 6 := by
  refine ⟨slow_down_adds_five_and_intervals_monotone.1 1 none none, ?_⟩
  exact slow_down_adds_five_and_intervals_monotone.2.2.1 1 6
    (.authError ⟨"slow_down", none, none⟩)
    (slow_down_adds_five_and_intervals_monotone.1 1 none none)

/-- C2: an `authorization_pending` poll response keeps the interval
unchanged, and any number of consecutive such responses leaves the loop
waiting the same interval each time and polling again, continuing afterwards
exactly as it would have without them. -/
theorem authorization_pending_keeps_interval :
    (∀ (i : Nat) (d u : Option String),
      nextInterval i (.authError ⟨"authorization_pending", d, u⟩) = some i) ∧
    (∀ (n i : Nat) (d u : Option String) (rs : List PollResult),
      wait_for_device_token i
          (List.replicate n (.err (.authError ⟨"authorization_pending", d, u⟩)) ++ rs)
        = ((wait_for_device_token i rs).1,
           (List.replicate n [Event.wait i, Event.poll]).flatten
             ++ (wait_for_device_token i rs).2)) := by
  refine ⟨fun i d u => by simp [nextInterval], fun n i d u rs => ?_⟩
  induction n with
  | zero => simp
  | succ m ih =>
      rw [List.replicate_succ, List.cons_append,
        driver_cons_retryable _ (by simp [nextInterval] : nextInterval i
          (.authError ⟨"authorization_pending", d, u⟩) = some i), ih]
      simp [List.replicate_succ]

/-- C3: the first poll response whose kind is not retryable (neither
`authorization_pending` nor `slow_down`, so in particular `access_denied`,
`expired_token`, and every transport or decode error) ends the loop at once:
the error is returned and exactly one poll was made, whatever responses
would have followed. -/
theorem terminal_error_ends_loop :
    ∀ (i : Nat) (e : Error) (rs : List PollResult),
      isRetryableKind e = false →
      wait_for_device_token i (.err e :: rs) = (.fatal e, [.wait i, .poll]) ∧
      (wait_for_device_token i (.err e :: rs)).2.countP isPollEvent = 1 := by
  intro i e rs h
  have hn := nextInterval_eq_none (i := i) h
  constructor
  · simp [wait_for_device_token, hn]
  · simp [wait_for_device_token, hn, List.countP_cons, isPollEvent]

/-- C3 witness: an `access_denied` response at interval 1 stops the loop
after its single poll even though a success response was queued next. -/
theorem terminal_error_ends_loop_witness :
    wait_for_device_token 1
        (.err (.authError ⟨"access_denied", none, none⟩)
          :: [.ok ⟨"accesstoken", some "refreshtoken", "Bearer", some 1234567⟩])
      = (.fatal (.authError ⟨"access_denied", none, none⟩),
         [.wait 1, .poll]) ∧
    (wait_for_device_token 1
        (.err (.authError ⟨"access_denied", none, none⟩)
          :: [.ok ⟨"accesstoken", some "refreshtoken", "Bearer", some 1234567⟩])).2.countP
      isPollEvent = 1 :=
  terminal_error_ends_loop 1 (.authError ⟨"access_denied", none, none⟩)
    [.ok ⟨"accesstoken", some "refreshtoken", "Bearer", some 1234567⟩] (by decide)

/-- C4: a response payload that both decodes as the success shape (here a
valid `Token`) and carries an `error` field is always classified as an error
by the envelope decoder; the error shape wins and the success payload is
ignored. -/
theorem error_field_takes_precedence :
    ∀ (j : JsonVal) (t : Token) (s : String),
      lookupField j "error" = some (.str s) →
      decodeToken j = some t →
      ∃ a : AuthError, a.error = s ∧
        decodeAuthErrorOr decodeToken j = .error (.authError a) := by
  intro j t s h1 h2
  unfold decodeAuthErrorOr decodeAuthError
  rw [h1]
  exact ⟨_, rfl, rfl⟩

/-- C4 witness: a payload carrying a full token and an `access_denied` error
field decodes as that error. -/
theorem error_field_takes_precedence_witness :
    ∃ a : AuthError, a.error = "access_denied" ∧
      decodeAuthErrorOr decodeToken
          (.obj [("access_token", .str "accesstoken"),
                 ("refresh_token", .str "refreshtoken"),
                 ("token_type", .str "Bearer"),
                 ("expires_in", .num 1234567),
                 ("error", .str "access_denied")])
        = .error (.authError a) :=
  error_field_takes_precedence
    (.obj [("access_token", .str "accesstoken"),
           ("refresh_token", .str "refreshtoken"),
           ("token_type", .str "Bearer"),
           ("expires_in", .num 1234567),
           ("error", .str "access_denied")])
    ⟨"accesstoken", some "refreshtoken", "Bearer", some 1234567⟩
    "access_denied" rfl rfl

/-- C5: for every valid (non-error) code-request response, the session's
`expires_at` is the request time plus the declared `expires_in`, and the
request time plus 3600 seconds when `expires_in` is absent. -/
theorem expires_at_from_expires_in :
    ∀ (now : Int) (b : JsonVal) (d : JsonData),
      decodeAuthErrorOr decodeJsonData b = .ok d →
      request_code now b = .ok (mkPollInfo now d, d.device_code) ∧
      (∀ e, d.expires_in = some e → (mkPollInfo now d).expires_at = now + e) ∧
      (d.expires_in = none → (mkPollInfo now d).expires_at = now + 3600) := by
  intro now b d h
  refine ⟨by unfold request_code; rw [h], fun e he => ?_, fun he => ?_⟩
  · simp [mkPollInfo, he]
  · norm_num [mkPollInfo, he]

/-- C5 witness: a response declaring `expires_in` 1234567 at time 0 yields
`expires_at` 1234567. -/
theorem expires_at_from_expires_in_witness :
    (mkPollInfo 0
        ⟨"devicecode", "usercode", "https://example.com/verify",
          some 1234567, 1⟩).expires_at = 0 + 1234567 :=
  (expires_at_from_expires_in 0
      (.obj [("device_code", .str "devicecode"),
             ("user_code", .str "usercode"),
             ("verification_url", .str "https://example.com/verify"),
             ("expires_in", .num 1234567),
             ("interval", .num 1)])
      ⟨"devicecode", "usercode", "https://example.com/verify", some 1234567, 1⟩
      rfl).2.1 1234567 rfl

/-- C6: for every `i64` interval declared by a valid (non-error) code-request
response, including every negative value, the code-request step succeeds and
the stored interval is the absolute value of the declared one, in seconds. -/
theorem interval_stored_as_absolute_value :
    ∀ (now : Int) (b : JsonVal) (d : JsonData),
      decodeAuthErrorOr decodeJsonData b = .ok d →
      request_code now b = .ok (mkPollInfo now d, d.device_code) ∧
      (mkPollInfo now d).interval = d.interval.natAbs := by
  intro now b d h
  have hd := decodeAuthErrorOr_ok h
  obtain ⟨h1, h2⟩ := decodeJsonData_interval_range hd
  refine ⟨by unfold request_code; rw [h], ?_⟩
  show i64AsU64 (rustAbsI64 d.interval) = d.interval.natAbs
  exact i64AsU64_rustAbsI64 h1 h2

/-- C6 witness: a declared interval of -7 seconds is accepted and stored as
7 seconds. -/
theorem interval_stored_as_absolute_value_witness :
    request_code 0
        (.obj [("device_code", .str "devicecode"),
               ("user_code", .str "usercode"),
               ("verification_url", .str "https://example.com/verify"),
               ("interval", .num (-7))])
      = .ok (mkPollInfo 0
          ⟨"devicecode", "usercode", "https://example.com/verify", none, -7⟩,
          "devicecode") ∧
    (mkPollInfo 0
        ⟨"devicecode", "usercode", "https://example.com/verify",
          none, -7⟩).interval = Int.natAbs (-7) :=
  interval_stored_as_absolute_value 0
    (.obj [("device_code", .str "devicecode"),
           ("user_code", .str "usercode"),
           ("verification_url", .str "https://example.com/verify"),
           ("interval", .num (-7))])
    ⟨"devicecode", "usercode", "https://example.com/verify", none, -7⟩ rfl

/-- C7: whenever the code-request step succeeds, the flow calls the delegate
exactly once, right after the code request and before any wait or poll; the
polling phase itself never calls the delegate; and the poll information shown
to the delegate does not depend on the device code (so the device code is
never part of it). -/
theorem present_user_code_exactly_once :
    ∀ (now : Int) (b : JsonVal) (pr : PollInformation × String)
      (rs : List PollResult),
      request_code now b = .ok pr →
      ((token now b rs).2
          = .codeRequest :: .presentUserCode pr.1
              :: (wait_for_device_token pr.1.interval rs).2 ∧
        (token now b rs).2.countP isPresentEvent = 1 ∧
        (wait_for_device_token pr.1.interval rs).2.countP isPresentEvent = 0)
      ∧ ∀ (d : JsonData) (dc : String),
          mkPollInfo now { d with device_code := dc } = mkPollInfo now d := by
  intro now b pr rs h
  have htr : (token now b rs).2
      = .codeRequest :: .presentUserCode pr.1
          :: (wait_for_device_token pr.1.interval rs).2 := by
    unfold token; rw [h]
  refine ⟨⟨htr, ?_, countP_present_driver rs pr.1.interval⟩,
    fun d dc => by cases d; rfl⟩
  rw [htr]
  simp [List.countP_cons, isPresentEvent, countP_present_driver rs pr.1.interval]

/-- C7 witness: on a concrete successful code-request response the delegate
is called exactly once. -/
theorem present_user_code_exactly_once_witness :
    (token 0
        (.obj [("device_code", .str "devicecode"),
               ("user_code", .str "usercode"),
               ("verification_url", .str "https://example.com/verify"),
               ("expires_in", .num 1234567),
               ("interval", .num 1)])
        []).2.countP isPresentEvent = 1 :=
  ((present_user_code_exactly_once 0
      (.obj [("device_code", .str "devicecode"),
             ("user_code", .str "usercode"),
             ("verification_url", .str "https://example.com/verify"),
             ("expires_in", .num 1234567),
             ("interval", .num 1)])
      (⟨"usercode", "https://example.com/verify", 1234567, 1⟩, "devicecode")
      [] rfl).1).2.1

/-- C8: every run of the polling loop is a strict alternation of a timed
wait followed by one poll — so each poll is preceded by a completed wait of
the current interval and no two polls overlap — and on a nonempty response
list the run opens with a wait of the starting interval followed by the
first poll. -/
theorem polls_paced_by_waits :
    ∀ (i : Nat) (rs : List PollResult),
      wellPaced (wait_for_device_token i rs).2 = true ∧
      ∀ (r : PollResult) (rs2 : List PollResult),
        ((wait_for_device_token i (r :: rs2)).2).take 2
          = [.wait i, .poll] := by
  intro i rs
  refine ⟨wellPaced_driver rs i, fun r rs2 => ?_⟩
  cases r with
  | ok t => rfl
  | err e =>
      cases h : nextInterval i e with
      | none => simp [wait_for_device_token, h]
      | some j => rw [driver_cons_retryable rs2 h]; rfl

/-- C9: when the code-request step returns a server error envelope, the flow
ends at once with that error; the delegate is never called and no poll
request is made. -/
theorem code_request_error_stops_flow :
    ∀ (now : Int) (b : JsonVal) (e : Error) (rs : List PollResult),
      request_code now b = .error e →
      token now b rs = (.fatal e, [.codeRequest]) ∧
      (token now b rs).2.countP isPollEvent = 0 ∧
      (token now b rs).2.countP isPresentEvent = 0 := by
  intro now b e rs h
  have ht : token now b rs = (.fatal e, [.codeRequest]) := by
    unfold token; rw [h]
  refine ⟨ht, ?_, ?_⟩ <;> rw [ht] <;> rfl

/-- C9 witness: an `invalid_client_id` error envelope from the code request
stops the flow with that error even though a poll response was queued. -/
theorem code_request_error_stops_flow_witness :
    token 0
        (.obj [("error", .str "invalid_client_id"),
               ("error_description", .str "description")])
        [.err (.authError ⟨"authorization_pending", none, none⟩)]
      = (.fatal (.authError ⟨"invalid_client_id", some "description", none⟩),
         [.codeRequest]) :=
  (code_request_error_stops_flow 0
    (.obj [("error", .str "invalid_client_id"),
           ("error_description", .str "description")])
    (.authError ⟨"invalid_client_id", some "description", none⟩)
    [.err (.authError ⟨"authorization_pending", none, none⟩)] rfl).1

/-- C10: `parse_application_secret` returns the `web` section whenever one is
present (also when `installed` is present too), else the `installed` section
when present, and an `InvalidData` error exactly in the remaining cases: an
input that does not decode to the expected shape, or neither section
present. -/
theorem parse_application_secret_behaviour :
    (∀ (d : ConsoleApplicationSecret) (w : ApplicationSecret),
      d.web = some w → parse_application_secret (some d) = .ok w) ∧
    (∀ (d : ConsoleApplicationSecret) (i : ApplicationSecret),
      d.web = none → d.installed = some i →
        parse_application_secret (some d) = .ok i) ∧
    (∀ d : ConsoleApplicationSecret,
      d.web = none → d.installed = none →
        parse_application_secret (some d) = .error .invalidData) ∧
    parse_application_secret none = .error .invalidData := by
  refine ⟨fun d w hw => ?_, fun d i hw hi => ?_, fun d hw hi => ?_, rfl⟩
  · simp [parse_application_secret, hw]
  · simp [parse_application_secret, hw, hi]
  · simp [parse_application_secret, hw, hi]

/-- C10 witness: with both sections present the `web` one wins; with only
`installed` it is returned; with neither the result is `InvalidData`. -/
theorem parse_application_secret_behaviour_witness :
    parse_application_secret
        (some ⟨some ⟨"wid", "wsecret", "wuri"⟩, some ⟨"iid", "isecret", "iuri"⟩⟩)
      = .ok ⟨"wid", "wsecret", "wuri"⟩ ∧
    parse_application_secret (some ⟨none, some ⟨"iid", "isecret", "iuri"⟩⟩)
      = .ok ⟨"iid", "isecret", "iuri"⟩ ∧
    parse_application_secret (some ⟨none, none⟩) = .error .invalidData :=
  ⟨parse_application_secret_behaviour.1 _ _ rfl,
   parse_application_secret_behaviour.2.1 _ _ rfl rfl,
   parse_application_secret_behaviour.2.2.1 _ rfl rfl⟩

end YupOauth2
